import Mathlib

/-!
Verification of the Ledger & Budget Engine of the Personal Finance Manager
(`app.py`).

The SQLite store is embedded shallowly: each table becomes a list of row
structures inside a `Store`, and every core operation of `app.py` becomes a
pure Lean function from a `Store` (plus its arguments) to a result and an
updated `Store`.  `INTEGER PRIMARY KEY` row ids are modelled by per-table
counters (`lastrowid` of a fresh insert is the counter value).  `REAL`
amounts are modelled as `Int`: every amount appearing in the specification
and its examples is integral, and float64 arithmetic is exact on them.
`occurred_at` / `created_at` are the ISO text stored in the `TEXT` columns;
SQLite compares `TEXT` bytewise, which on these ASCII strings is the
lexicographic order on code points embodied by `strLtB` below.
-/

namespace PFM

/-- Bytewise lexicographic strict order on code-point lists, mirroring how
SQLite compares `TEXT` values (memcmp; identical to code-point order on the
ASCII ISO date strings the program stores). -/
def listLtB : List Nat → List Nat → Bool
  | _, [] => false
  | [], _ :: _ => true
  | a :: as, b :: bs => a < b || (a == b && listLtB as bs)

/-- Strict `TEXT` comparison of two stored strings (`occurred_at < ?`). -/
def strLtB (a b : String) : Bool := listLtB (a.data.map Char.toNat) (b.data.map Char.toNat)

/-- Non-strict `TEXT` comparison (`occurred_at >= ?` is `strLeB ? occurred_at`). -/
def strLeB (a b : String) : Bool := !(strLtB b a)

/-- Row of the `users` table (`app.py` lines 42-50).  The password hash and
salt are owned by the opaque Authenticator collaborator and play no role in
any claim, so they are not carried. -/
structure UserRow where
  id : Nat
  username : String
  createdAt : String
deriving DecidableEq

/-- Row of the `categories` table (`app.py` lines 52-60): `UNIQUE(user_id, name)`. -/
structure CategoryRow where
  id : Nat
  userId : Nat
  name : String
deriving DecidableEq

/-- Row of the `transactions` table (`app.py` lines 62-75): `type` is
constrained by `CHECK(type IN ('income','expense'))` and `amount` by
`CHECK(amount >= 0)`; `category_id` and `note` are nullable. -/
structure TxRow where
  id : Nat
  userId : Nat
  type : String
  amount : Int
  categoryId : Option Nat
  note : Option String
  occurredAt : String
  createdAt : String
deriving DecidableEq

/-- Row of the `budgets` table (`app.py` lines 77-89):
`UNIQUE(user_id, category_id, month, year)`, `CHECK(amount >= 0)`. -/
structure BudgetRow where
  id : Nat
  userId : Nat
  categoryId : Nat
  amount : Int
  month : Nat
  year : Nat
deriving DecidableEq

/-- Whole persisted state: the four tables plus the next `rowid` of each. -/
structure Store where
  users : List UserRow
  categories : List CategoryRow
  transactions : List TxRow
  budgets : List BudgetRow
  nextUserId : Nat
  nextCategoryId : Nat
  nextTxId : Nat
  nextBudgetId : Nat
deriving DecidableEq

/-- Fresh database as produced by `init_db`: empty tables, rowids start at 1. -/
def Store.empty : Store :=
  { users := [], categories := [], transactions := [], budgets := [],
    nextUserId := 1, nextCategoryId := 1, nextTxId := 1, nextBudgetId := 1 }

/-- Default category names inserted for a new user (`app.py` line 119). -/
def defaultCategories : List String :=
  ["Salary", "Food", "Rent", "Transport", "Entertainment", "Utilities", "Other"]

/-- Embedding of `register` (`app.py` lines 109-129): inserts the user row and
then the seven default category rows on one connection, committing only after
all inserts, so a duplicate username (`sqlite3.IntegrityError` on the `UNIQUE`
username column, raised before anything is committed) leaves the store
untouched and returns `False`. -/
def register (s : Store) (username createdAt : String) : Bool × Store :=
  if s.users.any (fun u => u.username == username) then
    (false, s)
  else
    let uid := s.nextUserId
    let cats := defaultCategories.enum.map
      (fun p => CategoryRow.mk (s.nextCategoryId + p.1) uid p.2)
    (true,
      { s with
        users := s.users ++ [⟨uid, username, createdAt⟩]
        categories := s.categories ++ cats
        nextUserId := uid + 1
        nextCategoryId := s.nextCategoryId + defaultCategories.length })

/-- Embedding of `add_category` (`app.py` lines 149-162): attempt the insert;
on the `UNIQUE(user_id, name)` conflict fall back to selecting the existing
row's id.  Runs on its own connection and commits the insert immediately. -/
def add_category (s : Store) (userId : Nat) (name : String) : Nat × Store :=
  match s.categories.find? (fun c => c.userId == userId && c.name == name) with
  | some c => (c.id, s)
  | none =>
      let cid := s.nextCategoryId
      (cid,
        { s with
          categories := s.categories ++ [⟨cid, userId, name⟩]
          nextCategoryId := cid + 1 })

/-- Embedding of `get_budget` (`app.py` lines 269-276): the amount of the
budget row keyed by `(user_id, category_id, month, year)`, if any. -/
def get_budget (s : Store) (uid cid month year : Nat) : Option Int :=
  (s.budgets.find? (fun b =>
      b.userId == uid && b.categoryId == cid && b.month == month && b.year == year)).map
    (fun b => b.amount)

/-- Embedding of `set_budget` (`app.py` lines 253-267): resolves the category
(creating it if missing, committed immediately by `add_category`'s own
connection), then `INSERT ... ON CONFLICT(user_id, category_id, month, year)
DO UPDATE SET amount = excluded.amount`.  The conflict branch updates the
row(s) matching the unique key — by the store's `UNIQUE` constraint there is
at most one.  A negative `amount` trips `CHECK(amount >= 0)`, which raises
out of the function; that outcome is modelled as result `false` with only the
already-committed category write kept.  On success the source returns `True`. -/
def set_budget (s : Store) (uid : Nat) (category : String) (amount : Int)
    (month year : Nat) : Bool × Store :=
  let resolved := add_category s uid category
  let cid := resolved.1
  let s1 := resolved.2
  if amount < 0 then
    (false, s1)
  else if s1.budgets.any (fun b =>
      b.userId == uid && b.categoryId == cid && b.month == month && b.year == year) then
    (true,
      { s1 with
        budgets := s1.budgets.map (fun b =>
          if b.userId == uid && b.categoryId == cid && b.month == month && b.year == year
          then { b with amount := amount } else b) })
  else
    (true,
      { s1 with
        budgets := s1.budgets ++ [⟨s1.nextBudgetId, uid, cid, amount, month, year⟩]
        nextBudgetId := s1.nextBudgetId + 1 })

/-- Zero-padded two-digit rendering used by `date.isoformat()` for months. -/
def pad2 (n : Nat) : String := if n < 10 then "0" ++ toString n else toString n

/-- Zero-padded four-digit rendering used by `date.isoformat()` for years. -/
def pad4 (n : Nat) : String :=
  if n < 10 then "000" ++ toString n
  else if n < 100 then "00" ++ toString n
  else if n < 1000 then "0" ++ toString n
  else toString n

/-- `date(year, month, 1).isoformat()` (`app.py` lines 287, 307, 338). -/
def monthStartIso (year month : Nat) : String := pad4 year ++ "-" ++ pad2 month ++ "-01"

/-- First day of the following month, with the December→January year
rollover of `app.py` lines 288-291 / 308-311. -/
def monthEndIso (year month : Nat) : String :=
  if month = 12 then monthStartIso (year + 1) 1 else monthStartIso year (month + 1)

/-- Numeric value of a run of ASCII digits. -/
def digitsToNat (cs : List Char) : Nat := cs.foldl (fun acc c => acc * 10 + (c.toNat - 48)) 0

/-- Year component extracted by `datetime.fromisoformat(...)` from a stored
ISO string: its first four (digit) characters.  `fromisoformat` raises on
text that is not a valid ISO timestamp and the CLI refuses such input before
it is stored, so this total parse is only ever read on well-formed stored
strings. -/
def isoYear (occ : String) : Nat := digitsToNat (occ.data.take 4)

/-- Month component extracted by `datetime.fromisoformat(...)` from a stored
ISO string: the two (digit) characters after the first dash. -/
def isoMonth (occ : String) : Nat := digitsToNat ((occ.data.drop 5).take 2)

/-- SQL predicate `occurred_at >= start AND occurred_at < end` over the
half-open month window (`app.py` lines 294, 314, 326). -/
def inMonth (year month : Nat) (occ : String) : Bool :=
  strLeB (monthStartIso year month) occ && strLtB occ (monthEndIso year month)

/-- SQL predicate for the whole-year window `[Jan 1, next Jan 1)`
(`app.py` lines 338-342). -/
def inYear (year : Nat) (occ : String) : Bool :=
  strLeB (monthStartIso year 1) occ && strLtB occ (monthStartIso (year + 1) 1)

/-- `SUM(amount)` over a list of transaction rows; `SUM` of no rows is SQL
`NULL`, which the callers coerce to `0.0`. -/
def sumAmounts (ts : List TxRow) : Int := (ts.map (fun t => t.amount)).sum

/-- Rows contributing to the budget query of `check_budget_notify`
(`app.py` lines 292-295): the user's expense rows in the category whose
`occurred_at` lies in the half-open month window. -/
def monthCategoryExpenses (s : Store) (uid cid month year : Nat) : List TxRow :=
  s.transactions.filter (fun t =>
    t.userId == uid && t.categoryId == some cid && t.type == "expense" &&
      inMonth year month t.occurredAt)

/-- Embedding of `check_budget_notify` (`app.py` lines 278-300): reads month
and year out of `occurred_at`, looks up the cap, returns nothing when no
budget row exists, and otherwise signals `(total, cap)` exactly when the
summed expenses of that user, category and month strictly exceed the cap
(the printed alert is modelled as the returned signal). -/
def check_budget_notify (s : Store) (uid cid : Nat) (occ : String) :
    Option (Int × Int) :=
  let month := isoMonth occ
  let year := isoYear occ
  match get_budget s uid cid month year with
  | none => none
  | some cap =>
      let total := sumAmounts (monthCategoryExpenses s uid cid month year)
      if cap < total then some (total, cap) else none

/-- Outcome of `add_transaction`: the new rowid plus the budget signal the
source prints, or the exception the source raises (`ValueError` for a bad
kind at line 176, `sqlite3.IntegrityError` from `CHECK(amount >= 0)` at the
`INSERT` of line 185). -/
inductive AddOutcome where
  | ok (txId : Nat) (alert : Option (Int × Int))
  | invalidKind
  | negativeAmount
deriving DecidableEq

/-- Embedding of `add_transaction` (`app.py` lines 174-195).  The kind is
validated first; `occurred_at` defaults to the current time; a non-empty
category name is resolved through `add_category` (which commits on its own
connection, so that write survives a later `CHECK(amount >= 0)` failure of
the `INSERT`); after a committed expense insert with a resolved category the
budget check runs on the updated store.  `now` stands for
`datetime.utcnow().isoformat()`. -/
def add_transaction (s : Store) (uid : Nat) (txType : String) (amount : Int)
    (category : Option String) (note : Option String) (occurredAt : Option String)
    (now : String) : AddOutcome × Store :=
  if txType ≠ "income" ∧ txType ≠ "expense" then
    (.invalidKind, s)
  else
    let occ := occurredAt.getD now
    let resolved : Option Nat × Store :=
      match category with
      | some name =>
          if name = "" then (none, s)
          else
            let r := add_category s uid name
            (some r.1, r.2)
      | none => (none, s)
    let cid? := resolved.1
    let s1 := resolved.2
    if amount < 0 then
      (.negativeAmount, s1)
    else
      let txId := s1.nextTxId
      let s2 :=
        { s1 with
          transactions := s1.transactions ++ [⟨txId, uid, txType, amount, cid?, note, occ, now⟩]
          nextTxId := txId + 1 }
      let alert :=
        match cid? with
        | some cid => if txType = "expense" then check_budget_notify s2 uid cid occ else none
        | none => none
      (.ok txId alert, s2)

/-- Partial field set passed to `update_transaction`.  The source filters the
keyword arguments down to `{type, amount, category, note, occurred_at}` with
non-`None` values (`app.py` lines 198-202), so a `none` field here is exactly
an argument that is absent or `None` — the two are indistinguishable past
that filter. -/
structure TxPatch where
  type : Option String
  amount : Option Int
  category : Option String
  note : Option String
  occurredAt : Option String
deriving DecidableEq

/-- Patch with every field absent. -/
def TxPatch.isEmpty (p : TxPatch) : Bool :=
  p.type == none && p.amount == none && p.category == none && p.note == none &&
    p.occurredAt == none

/-- Outcome of `update_transaction`: the returned boolean, or the
`sqlite3.IntegrityError` a `CHECK`-violating `UPDATE` raises. -/
inductive UpdOutcome where
  | ret (changed : Bool)
  | checkViolation
deriving DecidableEq

/-- Embedding of `update_transaction` (`app.py` lines 197-225): an empty
filtered patch returns `False`; a transaction not owned by the caller returns
`False` with no write; a supplied category name is re-resolved through
`add_category` (committed on its own connection); then one `UPDATE` writes
exactly the supplied fields — a patch `type` outside `{income, expense}` or a
negative patch `amount` makes that `UPDATE` raise on its `CHECK` constraints,
after the category write already committed. -/
def update_transaction (s : Store) (uid txid : Nat) (p : TxPatch) :
    UpdOutcome × Store :=
  if p.isEmpty then (.ret false, s)
  else if ¬ s.transactions.any (fun t => t.id == txid && t.userId == uid) then
    (.ret false, s)
  else
    let resolved : Option (Option Nat) × Store :=
      match p.category with
      | some name =>
          let r := add_category s uid name
          (some (some r.1), r.2)
      | none => (none, s)
    let s1 := resolved.2
    let badType :=
      match p.type with
      | some ty => ty != "income" && ty != "expense"
      | none => false
    let badAmount :=
      match p.amount with
      | some a => decide (a < 0)
      | none => false
    if badType || badAmount then (.checkViolation, s1)
    else
      (.ret true,
        { s1 with
          transactions := s1.transactions.map (fun t =>
            if t.id = txid then
              { t with
                type := p.type.getD t.type
                amount := p.amount.getD t.amount
                categoryId := resolved.1.getD t.categoryId
                note := match p.note with | some n => some n | none => t.note
                occurredAt := p.occurredAt.getD t.occurredAt }
            else t) })

/-- Embedding of `delete_transaction` (`app.py` lines 227-234): deletes the
row matching both the id and the owner, returning whether any row went. -/
def delete_transaction (s : Store) (uid txid : Nat) : Bool × Store :=
  (s.transactions.any (fun t => t.id == txid && t.userId == uid),
    { s with transactions := s.transactions.filter (fun t => !(t.id == txid && t.userId == uid)) })

/-- Row shape produced by the `LEFT JOIN` of `list_transactions`
(`app.py` lines 239-246): the category id is replaced by the joined name,
`NULL` when the reference is null or dangling. -/
structure TxView where
  id : Nat
  type : String
  amount : Int
  category : Option String
  note : Option String
  occurredAt : String
deriving DecidableEq

/-- `LEFT JOIN categories c ON t.category_id = c.id` name lookup. -/
def categoryNameOf (s : Store) (cid? : Option Nat) : Option String :=
  cid?.bind (fun cid => (s.categories.find? (fun c => c.id == cid)).map (fun c => c.name))

/-- Newest-first comparison used by `ORDER BY t.occurred_at DESC`; ties are
broken arbitrarily by SQLite, and here by the stable sort's input order. -/
def occDesc (a b : TxRow) : Prop := strLeB b.occurredAt a.occurredAt = true

instance : DecidableRel occDesc := fun a b => decEq (strLeB b.occurredAt a.occurredAt) true

/-- Embedding of `list_transactions` (`app.py` lines 236-249): the user's
rows, newest `occurred_at` first, truncated by `LIMIT`, joined to names. -/
def list_transactions (s : Store) (uid : Nat) (limit : Nat) : List TxView :=
  let mine := s.transactions.filter (fun t => t.userId == uid)
  let sorted := mine.insertionSort occDesc
  (sorted.take limit).map (fun t =>
    ⟨t.id, t.type, t.amount, categoryNameOf s t.categoryId, t.note, t.occurredAt⟩)

/-- Totals dictionary of both reports. -/
structure Totals where
  income : Int
  expense : Int
  savings : Int
deriving DecidableEq

/-- Result of `report_monthly` (`app.py` lines 304-333). -/
structure MonthlyReport where
  period : String
  totals : Totals
  expenseByCategory : List (String × Int)
deriving DecidableEq

/-- Result of `report_yearly` (`app.py` lines 335-351); it carries no
category breakdown. -/
structure YearlyReport where
  period : String
  totals : Totals
deriving DecidableEq

/-- Expense rows of the user inside the month window, the population of the
breakdown query (`app.py` lines 322-329). -/
def monthExpenses (s : Store) (uid month year : Nat) : List TxRow :=
  s.transactions.filter (fun t =>
    t.userId == uid && t.type == "expense" && inMonth year month t.occurredAt)

/-- `GROUP BY c.name` of the breakdown query: one `(joined name, SUM)` pair
per distinct joined name (`NULL` for uncategorized rows), order immaterial
before the `ORDER BY`. -/
def breakdownGroups (s : Store) (uid month year : Nat) : List (Option String × Int) :=
  let ts := monthExpenses s uid month year
  (ts.map (fun t => categoryNameOf s t.categoryId)).dedup.map (fun k =>
    (k, sumAmounts (ts.filter (fun t => categoryNameOf s t.categoryId == k))))

/-- Rendering `r["name"] or "Uncategorized"` of `app.py` line 330: Python's
`or` falls through on every falsy name, so both the `NULL` of an
uncategorized row and the empty-string name render as the sentinel. -/
def orUncategorized (name? : Option String) : String :=
  if name?.getD "" = "" then "Uncategorized" else name?.getD ""

/-- `ORDER BY total DESC` on breakdown rows. -/
def totalDesc (a b : Option String × Int) : Prop := b.2 ≤ a.2

instance : DecidableRel totalDesc := fun a b => Int.decLe b.2 a.2

/-- Embedding of `report_monthly` (`app.py` lines 304-333): per-type totals
over the half-open month window (`GROUP BY type`, missing groups staying 0),
`savings = income - expense`, and the expense breakdown grouped by joined
category name, `NULL` rendered as `"Uncategorized"`, sorted by descending
total. -/
def report_monthly (s : Store) (uid month year : Nat) : MonthlyReport :=
  let income := sumAmounts (s.transactions.filter (fun t =>
    t.userId == uid && t.type == "income" && inMonth year month t.occurredAt))
  let expense := sumAmounts (monthExpenses s uid month year)
  { period := toString year ++ "-" ++ pad2 month
    totals := { income := income, expense := expense, savings := income - expense }
    expenseByCategory :=
      ((breakdownGroups s uid month year).insertionSort totalDesc).map (fun g =>
        (orUncategorized g.1, g.2)) }

/-- Embedding of `report_yearly` (`app.py` lines 335-351): the same totals
over the whole calendar year, and no breakdown. -/
def report_yearly (s : Store) (uid year : Nat) : YearlyReport :=
  let income := sumAmounts (s.transactions.filter (fun t =>
    t.userId == uid && t.type == "income" && inYear year t.occurredAt))
  let expense := sumAmounts (s.transactions.filter (fun t =>
    t.userId == uid && t.type == "expense" && inYear year t.occurredAt))
  { period := toString year
    totals := { income := income, expense := expense, savings := income - expense } }

/-- Fixture: fresh database with one registered user `alice` (user id 1,
default categories ids 1-7, `"Food"` being id 2, `"Rent"` id 3). -/
def aliceStore : Store := (register Store.empty "alice" "2025-01-01T00:00:00").2

/-- Fixture for the overage scenario: `alice` with a `Food` budget of 100 for
June 2025. -/
def foodBudgetStore : Store := (set_budget aliceStore 1 "Food" 100 6 2025).2

/-- Fixture: first overage-scenario insert, an expense of 60 on Food in June
2025. -/
def firstFoodAdd : AddOutcome × Store :=
  add_transaction foodBudgetStore 1 "expense" 60 (some "Food") none
    (some "2025-06-05") "2025-06-05T10:00:00"

/-- Fixture: second overage-scenario insert, an expense of 50 on Food in June
2025, cumulating to 110 against the cap of 100. -/
def secondFoodAdd : AddOutcome × Store :=
  add_transaction firstFoodAdd.2 1 "expense" 50 (some "Food") none
    (some "2025-06-20") "2025-06-20T10:00:00"

/-- Fixture for the report scenario: `alice` after income 1000 `Salary`,
expense 200 `Food`, expense 300 `Rent`, all in June 2025. -/
def reportStore : Store :=
  (add_transaction
    (add_transaction
      (add_transaction aliceStore 1 "income" 1000 (some "Salary") (some "monthly salary")
        (some "2025-06-01T09:00:00") "2025-06-01T09:00:00").2
      1 "expense" 200 (some "Food") (some "groceries")
        (some "2025-06-02T09:00:00") "2025-06-02T09:00:00").2
    1 "expense" 300 (some "Rent") (some "apartment")
      (some "2025-06-03T09:00:00") "2025-06-03T09:00:00").2

/-- Rows of the `categories` table matching `(user_id, name)`; the `UNIQUE`
constraint of the schema keeps this at most 1 in every reachable store. -/
def catCount (s : Store) (uid : Nat) (name : String) : Nat :=
  (s.categories.filter (fun c => c.userId == uid && c.name == name)).length

/-- Rows of the `budgets` table matching the `(user_id, category_id, month,
year)` unique key. -/
def budgetCount (s : Store) (uid cid month year : Nat) : Nat :=
  (s.budgets.filter (fun b =>
    b.userId == uid && b.categoryId == cid && b.month == month && b.year == year)).length

/-- Uniqueness invariant backed by `UNIQUE(user_id, category_id, month, year)`. -/
def BudgetUnique (s : Store) : Prop :=
  ∀ uid cid month year, budgetCount s uid cid month year ≤ 1

/-! ### Order facts about the `TEXT` comparison -/

lemma listLtB_irrefl (a : List Nat) : listLtB a a = false := by
  induction a with
  | nil => rfl
  | cons x xs ih => simp [listLtB, ih]

lemma listLtB_trans {a b c : List Nat} (h1 : listLtB a b = true) (h2 : listLtB b c = true) :
    listLtB a c = true := by
  induction a generalizing b c with
  | nil =>
    cases c with
    | nil =>
      cases b with
      | nil => simp [listLtB] at h1
      | cons y ys => simp [listLtB] at h2
    | cons z zs => simp [listLtB]
  | cons x xs ih =>
    cases b with
    | nil => simp [listLtB] at h1
    | cons y ys =>
      cases c with
      | nil => simp [listLtB] at h2
      | cons z zs =>
        simp only [listLtB, Bool.or_eq_true, Bool.and_eq_true, decide_eq_true_eq,
          beq_iff_eq] at h1 h2 ⊢
        rcases h1 with h1 | ⟨hxy, h1⟩ <;> rcases h2 with h2 | ⟨hyz, h2⟩
        · exact Or.inl (h1.trans h2)
        · exact Or.inl (hyz ▸ h1)
        · exact Or.inl (hxy ▸ h2)
        · exact Or.inr ⟨hxy.trans hyz, ih h1 h2⟩

lemma listLtB_conn {a b : List Nat} (h1 : listLtB a b = false) (h2 : listLtB b a = false) :
    a = b := by
  induction a generalizing b with
  | nil =>
    cases b with
    | nil => rfl
    | cons y ys => simp [listLtB] at h1
  | cons x xs ih =>
    cases b with
    | nil => simp [listLtB] at h2
    | cons y ys =>
      simp only [listLtB, Bool.or_eq_false_iff, Bool.and_eq_false_iff,
        decide_eq_false_iff_not, Nat.not_lt] at h1 h2
      obtain ⟨hyx, hrest1⟩ := h1
      obtain ⟨hxy, hrest2⟩ := h2
      have hxy' : x = y := Nat.le_antisymm hxy hyx
      subst hxy'
      rcases hrest1 with hne | hr1
      · simp at hne
      rcases hrest2 with hne | hr2
      · simp at hne
      rw [ih hr1 hr2]

lemma strLeB_total (a b : String) : strLeB a b = true ∨ strLeB b a = true := by
  unfold strLeB strLtB
  by_cases h : listLtB (b.data.map Char.toNat) (a.data.map Char.toNat) = true
  · right
    simp only [Bool.not_eq_true']
    by_contra hc
    simp only [Bool.not_eq_false] at hc
    have := listLtB_trans h hc
    rw [listLtB_irrefl] at this
    exact Bool.false_ne_true this
  · left
    simp only [Bool.not_eq_true] at h
    simp [h]

lemma strLeB_trans {a b c : String} (h1 : strLeB a b = true) (h2 : strLeB b c = true) :
    strLeB a c = true := by
  unfold strLeB strLtB at h1 h2 ⊢
  simp only [Bool.not_eq_true'] at h1 h2 ⊢
  by_contra hc
  simp only [Bool.not_eq_false] at hc
  by_cases hbc : listLtB (b.data.map Char.toNat) (c.data.map Char.toNat) = true
  · have := listLtB_trans hbc hc
    rw [h1] at this
    exact Bool.false_ne_true this
  · simp only [Bool.not_eq_true] at hbc
    have hb : b.data.map Char.toNat = c.data.map Char.toNat := listLtB_conn hbc h2
    rw [← hb] at hc
    rw [h1] at hc
    exact Bool.false_ne_true hc

instance : IsTrans TxRow occDesc :=
  ⟨fun _ _ _ h1 h2 => strLeB_trans h2 h1⟩

instance : IsTotal TxRow occDesc :=
  ⟨fun a b => strLeB_total b.occurredAt a.occurredAt⟩

instance : IsTrans (Option String × Int) totalDesc :=
  ⟨fun _ _ _ h1 h2 => le_trans h2 h1⟩

instance : IsTotal (Option String × Int) totalDesc :=
  ⟨fun a b => le_total b.2 a.2⟩

/-! ### Small facts about `add_category` -/

lemma add_category_users (s : Store) (u : Nat) (n : String) :
    ((add_category s u n).2).users = s.users := by
  unfold add_category
  cases s.categories.find? (fun c => c.userId == u && c.name == n) <;> rfl

lemma add_category_transactions (s : Store) (u : Nat) (n : String) :
    ((add_category s u n).2).transactions = s.transactions := by
  unfold add_category
  cases s.categories.find? (fun c => c.userId == u && c.name == n) <;> rfl

lemma add_category_budgets (s : Store) (u : Nat) (n : String) :
    ((add_category s u n).2).budgets = s.budgets := by
  unfold add_category
  cases s.categories.find? (fun c => c.userId == u && c.name == n) <;> rfl

lemma add_category_nextTxId (s : Store) (u : Nat) (n : String) :
    ((add_category s u n).2).nextTxId = s.nextTxId := by
  unfold add_category
  cases s.categories.find? (fun c => c.userId == u && c.name == n) <;> rfl

lemma mem_of_length_le_one {α : Type} {l : List α} (h : l.length ≤ 1) {x y : α}
    (hx : x ∈ l) (hy : y ∈ l) : x = y := by
  cases l with
  | nil => cases hx
  | cons a t =>
    cases t with
    | nil =>
      rw [List.mem_singleton] at hx hy
      rw [hx, hy]
    | cons b u => simp at h

/-! ### Claim theorems -/

/-- C5: for every pair of distinct users and every transaction id owned by the
first, invoking `update_transaction` or `delete_transaction` on that id as the
other user returns `False` (a plain boolean, not an exception) and leaves the
store — in particular the owner's transaction row — completely unchanged. -/
theorem c5_ownership_isolation (s : Store) (uidB txid : Nat) (p : TxPatch)
    (h : ∀ t ∈ s.transactions, t.id = txid → t.userId ≠ uidB) :
    update_transaction s uidB txid p = (.ret false, s) ∧
    delete_transaction s uidB txid = (false, s) := by
  have hany : s.transactions.any (fun t => t.id == txid && t.userId == uidB) = false := by
    rw [List.any_eq_false]
    intro t ht
    simp only [Bool.and_eq_true, beq_iff_eq, not_and]
    exact fun hid => h t ht hid
  refine ⟨?_, ?_⟩
  · unfold update_transaction
    by_cases he : p.isEmpty = true
    · simp [he]
    · simp [he, hany]
  · unfold delete_transaction
    have hfil : s.transactions.filter (fun t => !(t.id == txid && t.userId == uidB)) =
        s.transactions := by
      rw [List.filter_eq_self]
      intro t ht
      rw [List.any_eq_false] at hany
      simp [hany t ht]
    rw [hany, hfil]

/-- Closed instance of `c5_ownership_isolation`: user 2 touching the
transaction `alice` (user 1) added as row 1. -/
theorem c5_ownership_isolation_witness :
    (∀ t ∈ (firstFoodAdd.2).transactions, t.id = 1 → t.userId ≠ 2) ∧
    update_transaction firstFoodAdd.2 2 1 ⟨none, some 7, none, none, none⟩ =
      (.ret false, firstFoodAdd.2) ∧
    delete_transaction firstFoodAdd.2 2 1 = (false, firstFoodAdd.2) := by
  refine ⟨by decide, ?_, ?_⟩
  · exact (c5_ownership_isolation firstFoodAdd.2 2 1 ⟨none, some 7, none, none, none⟩
      (by decide)).1
  · exact (c5_ownership_isolation firstFoodAdd.2 2 1 ⟨none, some 7, none, none, none⟩
      (by decide)).2

/-- C6: category resolution is an idempotent get-or-create: when the store
satisfies the `UNIQUE(user_id, name)` constraint for the key, `add_category`
returns the id of an existing `(user, name)` row when there is one (exact,
non-normalized match), afterwards exactly one `(user, name)` row exists, and
an immediate second call returns the same id and the same store. -/
theorem c6_resolve_or_create_idempotent (s : Store) (uid : Nat) (name : String)
    (h : catCount s uid name ≤ 1) :
    (∀ c ∈ s.categories, c.userId = uid → c.name = name →
      (add_category s uid name).1 = c.id) ∧
    catCount (add_category s uid name).2 uid name = 1 ∧
    add_category (add_category s uid name).2 uid name =
      ((add_category s uid name).1, (add_category s uid name).2) := by
  unfold catCount at h
  rcases hf : s.categories.find? (fun c => c.userId == uid && c.name == name) with _ | c
  · have hall := List.find?_eq_none.1 hf
    have hnil : s.categories.filter (fun c => c.userId == uid && c.name == name) = [] :=
      List.filter_eq_nil_iff.2 hall
    have he : add_category s uid name =
        (s.nextCategoryId,
          { s with
            categories := s.categories ++ [⟨s.nextCategoryId, uid, name⟩]
            nextCategoryId := s.nextCategoryId + 1 }) := by
      unfold add_category
      rw [hf]
    have hf2 : (s.categories ++
          [(⟨s.nextCategoryId, uid, name⟩ : CategoryRow)]).find?
            (fun c => c.userId == uid && c.name == name) =
        some ⟨s.nextCategoryId, uid, name⟩ := by
      rw [List.find?_append, hf]
      simp [List.find?]
    refine ⟨?_, ?_, ?_⟩
    · intro c hc h1 h2
      exact absurd (by simp [h1, h2]) (hall c hc)
    · rw [he]
      unfold catCount
      simp [List.filter_append, hnil]
    · rw [he]
      unfold add_category
      rw [hf2]
  · have hpred := List.find?_some hf
    have hmem := List.mem_of_find?_eq_some hf
    simp only [Bool.and_eq_true, beq_iff_eq] at hpred
    have he : add_category s uid name = (c.id, s) := by
      unfold add_category
      rw [hf]
    have hcfil : c ∈ s.categories.filter (fun c => c.userId == uid && c.name == name) := by
      rw [List.mem_filter]
      exact ⟨hmem, by simp [hpred.1, hpred.2]⟩
    refine ⟨?_, ?_, ?_⟩
    · intro c2 hc2 h1 h2
      have hc2fil : c2 ∈ s.categories.filter (fun c => c.userId == uid && c.name == name) := by
        rw [List.mem_filter]
        exact ⟨hc2, by simp [h1, h2]⟩
      rw [he, mem_of_length_le_one h hcfil hc2fil]
    · simp only [he]
      unfold catCount
      have hpos := List.length_pos_of_mem hcfil
      omega
    · simp [he]

/-- Closed instance of `c6_resolve_or_create_idempotent`: resolving the fresh
name `"Gym"` for `alice` twice. -/
theorem c6_resolve_or_create_idempotent_witness :
    catCount aliceStore 1 "Gym" ≤ 1 ∧
    catCount (add_category aliceStore 1 "Gym").2 1 "Gym" = 1 ∧
    add_category (add_category aliceStore 1 "Gym").2 1 "Gym" =
      ((add_category aliceStore 1 "Gym").1, (add_category aliceStore 1 "Gym").2) := by
  refine ⟨by decide, ?_, ?_⟩
  · exact (c6_resolve_or_create_idempotent aliceStore 1 "Gym" (by decide)).2.1
  · exact (c6_resolve_or_create_idempotent aliceStore 1 "Gym" (by decide)).2.2

/-- C10: registering a fresh username appends exactly one user row and, in the
same atomic step, exactly seven category rows named `Salary`, `Food`, `Rent`,
`Transport`, `Entertainment`, `Utilities`, `Other`, all owned by the new user,
leaving every other table untouched; registering an existing username returns
`False` and changes nothing. -/
theorem c10_register_defaults (s : Store) (username createdAt : String) :
    ((∃ u ∈ s.users, u.username = username) →
      register s username createdAt = (false, s)) ∧
    ((∀ u ∈ s.users, u.username ≠ username) →
      (register s username createdAt).1 = true ∧
      ∃ newCats : List CategoryRow,
        (register s username createdAt).2 =
          { s with
            users := s.users ++ [⟨s.nextUserId, username, createdAt⟩]
            categories := s.categories ++ newCats
            nextUserId := s.nextUserId + 1
            nextCategoryId := s.nextCategoryId + 7 } ∧
        newCats.map (fun c => c.name) = defaultCategories ∧
        newCats.length = 7 ∧
        ∀ c ∈ newCats, c.userId = s.nextUserId) := by
  constructor
  · rintro ⟨u, hu, hname⟩
    have hany : s.users.any (fun v => v.username == username) = true :=
      List.any_eq_true.2 ⟨u, hu, by simp [hname]⟩
    unfold register
    rw [hany]
    simp
  · intro hfresh
    have hany : s.users.any (fun v => v.username == username) = false := by
      rw [List.any_eq_false]
      intro u hu
      simp [hfresh u hu]
    unfold register
    rw [hany]
    refine ⟨rfl, ⟨defaultCategories.enum.map
      (fun p => CategoryRow.mk (s.nextCategoryId + p.1) s.nextUserId p.2), ?_, ?_, ?_, ?_⟩⟩
    · rfl
    · rfl
    · rfl
    · intro c hc
      rw [List.mem_map] at hc
      obtain ⟨q, _, rfl⟩ := hc
      rfl

/-- Closed instance of `c10_register_defaults`: registering `alice` on a fresh
database and then registering `alice` again. -/
theorem c10_register_defaults_witness :
    (∀ u ∈ Store.empty.users, u.username ≠ "alice") ∧
    (register Store.empty "alice" "2025-01-01T00:00:00").1 = true ∧
    (∃ u ∈ aliceStore.users, u.username = "alice") ∧
    register aliceStore "alice" "2025-02-02T00:00:00" = (false, aliceStore) := by
  refine ⟨by decide, ?_, by decide, ?_⟩
  · exact ((c10_register_defaults Store.empty "alice" "2025-01-01T00:00:00").2
      (by decide)).1
  · exact (c10_register_defaults aliceStore "alice" "2025-02-02T00:00:00").1 (by decide)

/-- C2 as stated is false on the code: a failed insert with a negative amount
still creates the missing category row.  `add_transaction` resolves the
category through `add_category` — which commits on its own connection —
before the `INSERT` whose `CHECK(amount >= 0)` raises, so the failed call
leaves a new `Gym` category row behind. -/
theorem c2_counterexample :
    (add_transaction aliceStore 1 "expense" (-5) (some "Gym") none
      (some "2025-06-05") "2025-06-05T10:00:00").1 = .negativeAmount ∧
    (add_transaction aliceStore 1 "expense" (-5) (some "Gym") none
      (some "2025-06-05") "2025-06-05T10:00:00").2 ≠ aliceStore ∧
    (add_transaction aliceStore 1 "expense" (-5) (some "Gym") none
      (some "2025-06-05") "2025-06-05T10:00:00").2.categories.length =
      aliceStore.categories.length + 1 := by
  refine ⟨by decide, by decide, by decide⟩

/-- C2 amended: a call to `add_transaction` failing validation reports the
error and writes no transaction row.  An invalid kind aborts before any write,
leaving the store identical; a negative amount aborts at the `INSERT` with the
users, transactions and budgets tables untouched, but the category resolution
that already committed on its own connection may have added a category row. -/
theorem c2_amended_validation_failures (s : Store) (uid : Nat) (ty : String)
    (amount : Int) (cat note occ : Option String) (now : String) :
    (¬(ty = "income" ∨ ty = "expense") →
      add_transaction s uid ty amount cat note occ now = (.invalidKind, s)) ∧
    ((ty = "income" ∨ ty = "expense") → amount < 0 →
      (add_transaction s uid ty amount cat note occ now).1 = .negativeAmount ∧
      (add_transaction s uid ty amount cat note occ now).2.transactions = s.transactions ∧
      (add_transaction s uid ty amount cat note occ now).2.users = s.users ∧
      (add_transaction s uid ty amount cat note occ now).2.budgets = s.budgets) := by
  constructor
  · intro hbad
    rw [not_or] at hbad
    unfold add_transaction
    rw [if_pos hbad]
  · intro hty hneg
    have hcond : ¬(ty ≠ "income" ∧ ty ≠ "expense") := by
      rcases hty with rfl | rfl <;> simp
    unfold add_transaction
    rw [if_neg hcond]
    rcases cat with _ | name
    · simp [hneg]
    · by_cases hname : name = ""
      · simp [hname, hneg]
      · simp [hname, hneg, add_category_users, add_category_transactions,
          add_category_budgets]

/-- Closed instance of `c2_amended_validation_failures`: a bogus kind is fully
rejected, and a negative amount writes no transaction row. -/
theorem c2_amended_validation_failures_witness :
    ¬(("transfer" : String) = "income" ∨ ("transfer" : String) = "expense") ∧
    add_transaction aliceStore 1 "transfer" 5 (some "Gym") none
      (some "2025-06-05") "t" = (.invalidKind, aliceStore) ∧
    ((-5 : Int) < 0) ∧
    (add_transaction aliceStore 1 "expense" (-5) (some "Gym") none
      (some "2025-06-05") "t").2.transactions = aliceStore.transactions := by
  refine ⟨by decide, ?_, by decide, ?_⟩
  · exact (c2_amended_validation_failures aliceStore 1 "transfer" 5 (some "Gym") none
      (some "2025-06-05") "t").1 (by decide)
  · exact ((c2_amended_validation_failures aliceStore 1 "expense" (-5) (some "Gym") none
      (some "2025-06-05") "t").2 (by decide) (by decide)).2.1

/-- Amount patching preserves every `(user_id, category_id, month, year)`
filter, so the `DO UPDATE` branch of the upsert never changes a key's row
count. -/
lemma budget_patch_filter_length (l : List BudgetRow) (amount : Int)
    (p : BudgetRow → Bool) (uid2 cid2 m2 y2 : Nat) :
    ((l.map (fun b => if p b then { b with amount := amount } else b)).filter
        (fun b => b.userId == uid2 && b.categoryId == cid2 &&
          b.month == m2 && b.year == y2)).length =
      (l.filter (fun b => b.userId == uid2 && b.categoryId == cid2 &&
          b.month == m2 && b.year == y2)).length := by
  rw [List.filter_map, List.length_map]
  congr 1
  apply List.filter_congr
  intro b _
  by_cases hb : p b = true
  · simp [hb]
  · rw [Bool.not_eq_true] at hb
    simp [hb]

/-- C3: `set_budget` is an upsert on the unique key `(user, category, month,
year)`: when the store satisfies the uniqueness invariant and the cap is
non-negative, the call succeeds, the invariant is preserved, exactly one
budget row exists for the written key afterwards, and that row carries the
new amount; in particular setting `Food` to 50 and then to 75 for June 2025
leaves exactly one budget row, with amount 75. -/
theorem c3_budget_upsert :
    (∀ (s : Store) (uid : Nat) (cat : String) (amount : Int) (month year : Nat),
      0 ≤ amount → BudgetUnique s →
      (set_budget s uid cat amount month year).1 = true ∧
      BudgetUnique (set_budget s uid cat amount month year).2 ∧
      budgetCount (set_budget s uid cat amount month year).2 uid
        (add_category s uid cat).1 month year = 1 ∧
      (∀ b ∈ (set_budget s uid cat amount month year).2.budgets,
        b.userId = uid → b.categoryId = (add_category s uid cat).1 →
        b.month = month → b.year = year → b.amount = amount)) ∧
    (set_budget (set_budget aliceStore 1 "Food" 50 6 2025).2 1 "Food" 75 6 2025).2.budgets =
      [⟨1, 1, 2, 75, 6, 2025⟩] := by
  constructor
  · intro s uid cat amount month year hamt hu
    have hanot : ¬ amount < 0 := Int.not_lt.2 hamt
    set cid := (add_category s uid cat).1 with hcid
    set s1 := (add_category s uid cat).2 with hs1
    have hb1 : s1.budgets = s.budgets := add_category_budgets s uid cat
    have hred : set_budget s uid cat amount month year =
        (if amount < 0 then (false, s1)
         else if s1.budgets.any (fun b =>
            b.userId == uid && b.categoryId == cid && b.month == month && b.year == year) then
          (true,
            { s1 with
              budgets := s1.budgets.map (fun b =>
                if b.userId == uid && b.categoryId == cid && b.month == month && b.year == year
                then { b with amount := amount } else b) })
         else
          (true,
            { s1 with
              budgets := s1.budgets ++ [⟨s1.nextBudgetId, uid, cid, amount, month, year⟩]
              nextBudgetId := s1.nextBudgetId + 1 })) := rfl
    rw [hred, if_neg hanot]
    by_cases hex : s1.budgets.any (fun b =>
        b.userId == uid && b.categoryId == cid && b.month == month && b.year == year) = true
    · rw [if_pos hex]
      obtain ⟨b0, hb0mem, hb0⟩ := List.any_eq_true.1 hex
      refine ⟨rfl, ?_, ?_, ?_⟩
      · intro uid2 cid2 m2 y2
        unfold budgetCount
        simp only
        rw [budget_patch_filter_length, hb1]
        exact hu uid2 cid2 m2 y2
      · unfold budgetCount
        simp only
        rw [budget_patch_filter_length, hb1]
        have hone : b0 ∈ s.budgets.filter (fun b =>
            b.userId == uid && b.categoryId == cid && b.month == month && b.year == year) :=
          List.mem_filter.2 ⟨hb1 ▸ hb0mem, hb0⟩
        have hpos := List.length_pos_of_mem hone
        have hle := hu uid cid month year
        unfold budgetCount at hle
        omega
      · intro b hbmem h1 h2 h3 h4
        simp only at hbmem
        rw [List.mem_map] at hbmem
        obtain ⟨b1, hb1mem, hfb⟩ := hbmem
        by_cases hp : (b1.userId == uid && b1.categoryId == cid &&
            b1.month == month && b1.year == year) = true
        · rw [if_pos hp] at hfb
          rw [← hfb]
        · rw [if_neg hp] at hfb
          subst hfb
          exact absurd (by simp [h1, h2, h3, h4]) hp
    · rw [if_neg hex]
      rw [Bool.not_eq_true, List.any_eq_false] at hex
      have hnil : s1.budgets.filter (fun b =>
          b.userId == uid && b.categoryId == cid && b.month == month && b.year == year) = [] :=
        List.filter_eq_nil_iff.2 hex
      refine ⟨rfl, ?_, ?_, ?_⟩
      · intro uid2 cid2 m2 y2
        unfold budgetCount
        simp only
        rw [List.filter_append, List.length_append]
        by_cases hq : ((⟨s1.nextBudgetId, uid, cid, amount, month, year⟩ : BudgetRow).userId == uid2 &&
            (⟨s1.nextBudgetId, uid, cid, amount, month, year⟩ : BudgetRow).categoryId == cid2 &&
            (⟨s1.nextBudgetId, uid, cid, amount, month, year⟩ : BudgetRow).month == m2 &&
            (⟨s1.nextBudgetId, uid, cid, amount, month, year⟩ : BudgetRow).year == y2) = true
        · simp only [Bool.and_eq_true, beq_iff_eq] at hq
          have e1 : uid = uid2 := hq.1.1.1
          have e2 : cid = cid2 := hq.1.1.2
          have e3 : month = m2 := hq.1.2
          have e4 : year = y2 := hq.2
          subst e1; subst e2; subst e3; subst e4
          rw [hnil]
          simp
        · have hz : (List.filter (fun b => b.userId == uid2 && b.categoryId == cid2 &&
              b.month == m2 && b.year == y2)
                [(⟨s1.nextBudgetId, uid, cid, amount, month, year⟩ : BudgetRow)]).length = 0 := by
            rw [List.length_eq_zero, List.filter_eq_nil_iff]
            intro a ha
            rw [List.mem_singleton] at ha
            subst ha
            exact fun hc => hq hc
          rw [hz]
          have hle := hu uid2 cid2 m2 y2
          unfold budgetCount at hle
          rw [hb1]
          omega
      · unfold budgetCount
        simp only
        rw [List.filter_append, hnil]
        simp
      · intro b hbmem h1 h2 h3 h4
        simp only at hbmem
        rw [List.mem_append] at hbmem
        rcases hbmem with hbs | hbnew
        · exact absurd (by simp [h1, h2, h3, h4]) (hex b hbs)
        · rw [List.mem_singleton] at hbnew
          rw [hbnew]
  · decide

/-- Closed instance of `c3_budget_upsert`: the very first `set_budget` call of
the 50-then-75 scenario. -/
theorem c3_budget_upsert_witness :
    ((0 : Int) ≤ 50) ∧ BudgetUnique aliceStore ∧
    (set_budget aliceStore 1 "Food" 50 6 2025).1 = true ∧
    budgetCount (set_budget aliceStore 1 "Food" 50 6 2025).2 1
      (add_category aliceStore 1 "Food").1 6 2025 = 1 := by
  have hu : BudgetUnique aliceStore := by
    intro uid cid month year
    unfold budgetCount
    have hb : aliceStore.budgets = [] := rfl
    rw [hb]
    simp
  have h := c3_budget_upsert.1 aliceStore 1 "Food" 50 6 2025 (by decide) hu
  exact ⟨by decide, hu, h.1, h.2.2.1⟩

/-- C7: both reports satisfy `savings = income - expense` for every store and
period; a user with no transaction in the period gets all-zero totals rather
than an error; and the yearly report ranges over the full calendar year
`[Jan 1, next Jan 1)` — its result type, `YearlyReport`, carries no category
breakdown at all. -/
theorem c7_savings_identity_and_zero_periods :
    (∀ (s : Store) (uid month year : Nat),
      (report_monthly s uid month year).totals.savings =
        (report_monthly s uid month year).totals.income -
          (report_monthly s uid month year).totals.expense) ∧
    (∀ (s : Store) (uid year : Nat),
      (report_yearly s uid year).totals.savings =
        (report_yearly s uid year).totals.income -
          (report_yearly s uid year).totals.expense) ∧
    (∀ (s : Store) (uid month year : Nat),
      (∀ t ∈ s.transactions, t.userId = uid → inMonth year month t.occurredAt = false) →
      (report_monthly s uid month year).totals = ⟨0, 0, 0⟩) ∧
    (∀ (s : Store) (uid year : Nat),
      (∀ t ∈ s.transactions, t.userId = uid → inYear year t.occurredAt = false) →
      (report_yearly s uid year).totals = ⟨0, 0, 0⟩) ∧
    (∀ (s : Store) (uid year : Nat),
      (report_yearly s uid year).totals.income = sumAmounts (s.transactions.filter
        (fun t => t.userId == uid && t.type == "income" && inYear year t.occurredAt)) ∧
      (report_yearly s uid year).totals.expense = sumAmounts (s.transactions.filter
        (fun t => t.userId == uid && t.type == "expense" && inYear year t.occurredAt))) := by
  refine ⟨fun s uid month year => rfl, fun s uid year => rfl, ?_, ?_,
    fun s uid year => ⟨rfl, rfl⟩⟩
  · intro s uid month year h
    have hfil : ∀ ty : String, s.transactions.filter
        (fun t => t.userId == uid && t.type == ty && inMonth year month t.occurredAt) = [] := by
      intro ty
      rw [List.filter_eq_nil_iff]
      intro t ht hc
      simp only [Bool.and_eq_true, beq_iff_eq] at hc
      rw [h t ht hc.1.1] at hc
      exact Bool.false_ne_true hc.2
    unfold report_monthly monthExpenses
    simp only [hfil "income", hfil "expense"]
    show Totals.mk (sumAmounts []) (sumAmounts []) (sumAmounts [] - sumAmounts []) = ⟨0, 0, 0⟩
    rfl
  · intro s uid year h
    have hfil : ∀ ty : String, s.transactions.filter
        (fun t => t.userId == uid && t.type == ty && inYear year t.occurredAt) = [] := by
      intro ty
      rw [List.filter_eq_nil_iff]
      intro t ht hc
      simp only [Bool.and_eq_true, beq_iff_eq] at hc
      rw [h t ht hc.1.1] at hc
      exact Bool.false_ne_true hc.2
    unfold report_yearly
    simp only [hfil "income", hfil "expense"]
    show Totals.mk (sumAmounts []) (sumAmounts []) (sumAmounts [] - sumAmounts []) = ⟨0, 0, 0⟩
    rfl

/-- Closed instance of `c7_savings_identity_and_zero_periods`: the fixture
after the report scenario, plus the all-zero totals of an untouched month and
year on the fresh `aliceStore`. -/
theorem c7_savings_identity_and_zero_periods_witness :
    (report_monthly reportStore 1 6 2025).totals.savings =
      (report_monthly reportStore 1 6 2025).totals.income -
        (report_monthly reportStore 1 6 2025).totals.expense ∧
    (report_monthly aliceStore 1 6 2025).totals = ⟨0, 0, 0⟩ ∧
    (report_yearly aliceStore 1 2025).totals = ⟨0, 0, 0⟩ := by
  refine ⟨c7_savings_identity_and_zero_periods.1 reportStore 1 6 2025, ?_, ?_⟩
  · exact c7_savings_identity_and_zero_periods.2.2.1 aliceStore 1 6 2025
      (fun t ht => absurd ht (List.not_mem_nil t))
  · exact c7_savings_identity_and_zero_periods.2.2.2.1 aliceStore 1 2025
      (fun t ht => absurd ht (List.not_mem_nil t))

/-- C4 fails as stated: `update_transaction` can never clear the category
reference.  Supplying the empty-string marker assigns a freshly created
category named `""` (id 8) instead of clearing, and supplying the null marker
is removed by the non-`None` keyword filter, so the category is left
untouched. -/
theorem c4_counterexample :
    (update_transaction firstFoodAdd.2 1 1
        ⟨none, none, some "", none, none⟩).2.transactions =
      [⟨1, 1, "expense", 60, some 8, none, "2025-06-05", "2025-06-05T10:00:00"⟩] ∧
    (update_transaction firstFoodAdd.2 1 1
        ⟨none, none, none, some "still categorized", none⟩).2.transactions =
      [⟨1, 1, "expense", 60, some 2, some "still categorized", "2025-06-05",
        "2025-06-05T10:00:00"⟩] := by
  exact ⟨by decide, by decide⟩

/-- C4 amended: an owned-transaction update with a non-empty valid partial
field set returns `True` and changes exactly the supplied fields: rows with a
different id are untouched, and the target row keeps its id, owner, audit
timestamp and every absent field, while a supplied category name — `None`
being indistinguishable from "not provided" after the keyword filter, so the
reference is never cleared — is re-resolved through `add_category`. -/
theorem c4_amended_partial_update (s : Store) (uid txid : Nat) (p : TxPatch)
    (hne : p.isEmpty = false)
    (hown : s.transactions.any (fun t => t.id == txid && t.userId == uid) = true)
    (hty : ∀ ty, p.type = some ty → ty = "income" ∨ ty = "expense")
    (hamt : ∀ a, p.amount = some a → 0 ≤ a) :
    (update_transaction s uid txid p).1 = .ret true ∧
    (∀ t ∈ s.transactions, t.id ≠ txid →
      t ∈ (update_transaction s uid txid p).2.transactions) ∧
    (∀ t ∈ s.transactions, t.id = txid →
      ∃ t2 ∈ (update_transaction s uid txid p).2.transactions,
        t2.id = t.id ∧ t2.userId = t.userId ∧ t2.createdAt = t.createdAt ∧
        t2.type = p.type.getD t.type ∧
        t2.amount = p.amount.getD t.amount ∧
        t2.occurredAt = p.occurredAt.getD t.occurredAt ∧
        t2.note = (match p.note with | some n => some n | none => t.note) ∧
        t2.categoryId = (match p.category with
          | some name => some (add_category s uid name).1
          | none => t.categoryId)) := by
  have hbt : (match p.type with
      | some ty => ty != "income" && ty != "expense"
      | none => false) = false := by
    cases hpt : p.type with
    | none => rfl
    | some ty => rcases hty ty hpt with rfl | rfl <;> rfl
  have hba : (match p.amount with
      | some a => decide (a < 0)
      | none => false) = false := by
    cases hpa : p.amount with
    | none => rfl
    | some a => simpa using Int.not_lt.2 (hamt a hpa)
  rcases hpc : p.category with _ | name
  all_goals
    unfold update_transaction
    rw [hpc] at *
    simp only [hne, hown, hpc, hbt, hba, Bool.false_eq_true, if_false,
      Bool.or_self, not_true, Bool.false_eq_true]
  · refine ⟨trivial, ?_, ?_⟩
    · intro t ht hid
      rw [List.mem_map]
      exact ⟨t, ht, if_neg hid⟩
    · intro t ht hid
      refine ⟨_, List.mem_map_of_mem _ ht, ?_⟩
      simp [hid]
  · refine ⟨trivial, ?_, ?_⟩
    · intro t ht hid
      rw [add_category_transactions, List.mem_map]
      exact ⟨t, ht, if_neg hid⟩
    · intro t ht hid
      rw [add_category_transactions]
      refine ⟨_, List.mem_map_of_mem _ ht, ?_⟩
      simp [hid]

/-- Closed instance of `c4_amended_partial_update`: updating every field of
`alice`'s transaction 1 at once. -/
theorem c4_amended_partial_update_witness :
    (⟨some "income", some 70, some "Rent", some "gift", some "2025-07-01"⟩ :
      TxPatch).isEmpty = false ∧
    (firstFoodAdd.2.transactions.any (fun t => t.id == 1 && t.userId == 1)) = true ∧
    (update_transaction firstFoodAdd.2 1 1
      ⟨some "income", some 70, some "Rent", some "gift", some "2025-07-01"⟩).1 = .ret true := by
  refine ⟨by decide, by decide, ?_⟩
  exact (c4_amended_partial_update firstFoodAdd.2 1 1
    ⟨some "income", some 70, some "Rent", some "gift", some "2025-07-01"⟩
    (by decide) (by decide)
    (fun ty hty => by injection hty with h; exact Or.inl h.symm)
    (fun a ha => by injection ha with h; rw [← h]; decide)).1

/-- Zeta-reduced form of `check_budget_notify`. -/
lemma check_budget_notify_eq (s : Store) (uid cid : Nat) (occ : String) :
    check_budget_notify s uid cid occ =
      match get_budget s uid cid (isoMonth occ) (isoYear occ) with
      | none => none
      | some cap =>
          if cap < sumAmounts (monthCategoryExpenses s uid cid (isoMonth occ) (isoYear occ))
          then some (sumAmounts (monthCategoryExpenses s uid cid (isoMonth occ) (isoYear occ)),
            cap)
          else none := rfl

/-- Semantics of the budget check: nothing without a budget row, and with a
cap present a signal exactly when the month's category expenses strictly
exceed it. -/
lemma check_budget_notify_spec (s : Store) (uid cid : Nat) (occ : String) :
    (get_budget s uid cid (isoMonth occ) (isoYear occ) = none →
      check_budget_notify s uid cid occ = none) ∧
    (∀ cap, get_budget s uid cid (isoMonth occ) (isoYear occ) = some cap →
      ((check_budget_notify s uid cid occ =
          some (sumAmounts (monthCategoryExpenses s uid cid (isoMonth occ) (isoYear occ)),
            cap)) ↔
        cap < sumAmounts (monthCategoryExpenses s uid cid (isoMonth occ) (isoYear occ))) ∧
      (check_budget_notify s uid cid occ = none ↔
        sumAmounts (monthCategoryExpenses s uid cid (isoMonth occ) (isoYear occ)) ≤ cap)) := by
  constructor
  · intro h
    simp only [check_budget_notify_eq, h]
  · intro cap h
    simp only [check_budget_notify_eq, h]
    by_cases hlt : cap < sumAmounts (monthCategoryExpenses s uid cid (isoMonth occ) (isoYear occ))
    · rw [if_pos hlt]
      exact ⟨⟨fun _ => hlt, fun _ => rfl⟩,
        ⟨fun hc => absurd hc (by simp), fun hle => absurd hlt (Int.not_lt.2 hle)⟩⟩
    · rw [if_neg hlt]
      exact ⟨⟨fun hc => absurd hc (by simp), fun hc => absurd hc hlt⟩,
        ⟨fun _ => Int.not_lt.1 hlt, fun _ => rfl⟩⟩

/-- C1: inserting an expense with a resolved category runs the budget check
on the committed store: the month and year are read out of `occurred_at`
(the month window `monthStartIso`/`monthEndIso` rolling December over to
January of the next year), a missing budget for `(user, category, month,
year)` yields no signal, and with a cap present the signal fires if and only
if the sum of the user's expense transactions of that category inside the
half-open month window strictly exceeds the cap; in particular, against a
`Food` cap of 100, inserting expenses 60 then 50 signals on the second
insert (110 > 100) but not on the first (60 ≤ 100). -/
theorem c1_overage_check_on_expense_insert :
    (∀ (s : Store) (uid : Nat) (amount : Int) (catName : String) (note : Option String)
        (occAt : Option String) (now : String) (outcome : AddOutcome) (s2 : Store),
      catName ≠ "" → 0 ≤ amount →
      add_transaction s uid "expense" amount (some catName) note occAt now = (outcome, s2) →
      ∃ alert,
        outcome = .ok ((add_category s uid catName).2).nextTxId alert ∧
        (get_budget s2 uid (add_category s uid catName).1 (isoMonth (occAt.getD now))
            (isoYear (occAt.getD now)) = none → alert = none) ∧
        (∀ cap, get_budget s2 uid (add_category s uid catName).1 (isoMonth (occAt.getD now))
            (isoYear (occAt.getD now)) = some cap →
          ((alert = some (sumAmounts (monthCategoryExpenses s2 uid
              (add_category s uid catName).1 (isoMonth (occAt.getD now))
              (isoYear (occAt.getD now))), cap)) ↔
            cap < sumAmounts (monthCategoryExpenses s2 uid (add_category s uid catName).1
              (isoMonth (occAt.getD now)) (isoYear (occAt.getD now)))) ∧
          (alert = none ↔ sumAmounts (monthCategoryExpenses s2 uid
              (add_category s uid catName).1 (isoMonth (occAt.getD now))
              (isoYear (occAt.getD now))) ≤ cap))) ∧
    firstFoodAdd.1 = .ok 1 none ∧
    secondFoodAdd.1 = .ok 2 (some (110, 100)) := by
  refine ⟨?_, by decide, by decide⟩
  intro s uid amount catName note occAt now outcome s2 hname hamt heq
  have hcond : ¬(("expense" : String) ≠ "income" ∧ ("expense" : String) ≠ "expense") := by
    simp
  unfold add_transaction at heq
  rw [if_neg hcond] at heq
  simp only [if_neg hname] at heq
  rw [if_neg (Int.not_lt.2 hamt)] at heq
  simp only [Prod.mk.injEq] at heq
  obtain ⟨ho, hs2⟩ := heq
  subst hs2
  refine ⟨check_budget_notify _ uid (add_category s uid catName).1 (occAt.getD now),
    ho.symm, ?_, ?_⟩
  · intro hnone
    exact (check_budget_notify_spec _ uid (add_category s uid catName).1
      (occAt.getD now)).1 hnone
  · intro cap hcap
    exact (check_budget_notify_spec _ uid (add_category s uid catName).1
      (occAt.getD now)).2 cap hcap

/-- Closed instance of `c1_overage_check_on_expense_insert`: the second
overage-scenario insert, whose cumulative total 110 exceeds the cap 100. -/
theorem c1_overage_check_on_expense_insert_witness :
    ("Food" : String) ≠ "" ∧ (0 : Int) ≤ 50 ∧
    ∃ alert,
      secondFoodAdd.1 = .ok ((add_category firstFoodAdd.2 1 "Food").2).nextTxId alert ∧
      (get_budget secondFoodAdd.2 1 (add_category firstFoodAdd.2 1 "Food").1
          (isoMonth ((some "2025-06-20").getD "2025-06-20T10:00:00"))
          (isoYear ((some "2025-06-20").getD "2025-06-20T10:00:00")) = none →
        alert = none) ∧
    True := by
  refine ⟨by decide, by decide, ?_⟩
  obtain ⟨alert, h1, h2, _⟩ := c1_overage_check_on_expense_insert.1 firstFoodAdd.2 1 50
    "Food" none (some "2025-06-20") "2025-06-20T10:00:00" secondFoodAdd.1 secondFoodAdd.2
    (by decide) (by decide) rfl
  exact ⟨alert, h1, h2, trivial⟩

/-- Zeta-reduced form of `breakdownGroups`. -/
lemma breakdownGroups_eq (s : Store) (uid month year : Nat) :
    breakdownGroups s uid month year =
      ((monthExpenses s uid month year).map
          (fun t => categoryNameOf s t.categoryId)).dedup.map
        (fun k => (k, sumAmounts ((monthExpenses s uid month year).filter
          (fun t => categoryNameOf s t.categoryId == k)))) := rfl

/-- C8: the monthly report computes the income and expense totals over the
half-open month window, and its expense breakdown has one entry per distinct
joined category name — `NULL` rendered as the `"Uncategorized"` sentinel —
whose total is that group's expense sum, listed in descending order of total;
in the concrete scenario (income 1000 `Salary`, expenses 200 `Food` and 300
`Rent`) it reports income 1000, expense 500, savings 500 and breakdown
`[(Rent, 300), (Food, 200)]`. -/
theorem c8_monthly_report_breakdown :
    (∀ (s : Store) (uid month year : Nat),
      (report_monthly s uid month year).totals.income = sumAmounts (s.transactions.filter
        (fun t => t.userId == uid && t.type == "income" && inMonth year month t.occurredAt)) ∧
      (report_monthly s uid month year).totals.expense =
        sumAmounts (monthExpenses s uid month year) ∧
      List.Sorted (fun g1 g2 : String × Int => g2.2 ≤ g1.2)
        (report_monthly s uid month year).expenseByCategory ∧
      ((report_monthly s uid month year).expenseByCategory).Perm
        ((breakdownGroups s uid month year).map
          (fun g => (orUncategorized g.1, g.2))) ∧
      (∀ g ∈ (report_monthly s uid month year).expenseByCategory,
        ∃ k : Option String,
          k ∈ (monthExpenses s uid month year).map (fun t => categoryNameOf s t.categoryId) ∧
          g.1 = orUncategorized k ∧
          g.2 = sumAmounts ((monthExpenses s uid month year).filter
            (fun t => categoryNameOf s t.categoryId == k)))) ∧
    report_monthly reportStore 1 6 2025 =
      { period := "2025-06"
        totals := { income := 1000, expense := 500, savings := 500 }
        expenseByCategory := [("Rent", 300), ("Food", 200)] } := by
  refine ⟨?_, by decide⟩
  intro s uid month year
  refine ⟨rfl, rfl, ?_, ?_, ?_⟩
  · exact List.Pairwise.map _ (fun a b h => h)
      (List.sorted_insertionSort totalDesc (breakdownGroups s uid month year))
  · exact (List.perm_insertionSort totalDesc (breakdownGroups s uid month year)).map _
  · intro g hg
    have hg2 : g ∈ ((breakdownGroups s uid month year).insertionSort totalDesc).map
        (fun g => (orUncategorized g.1, g.2)) := hg
    rw [List.mem_map] at hg2
    obtain ⟨grp, hgrp, rfl⟩ := hg2
    rw [List.mem_insertionSort, breakdownGroups_eq, List.mem_map] at hgrp
    obtain ⟨k, hk, rfl⟩ := hgrp
    rw [List.mem_dedup] at hk
    exact ⟨k, hk, rfl, rfl⟩

/-- Closed instance of `c8_monthly_report_breakdown`: the totals of the
report scenario coincide with the window sums. -/
theorem c8_monthly_report_breakdown_witness :
    (report_monthly reportStore 1 6 2025).totals.expense =
      sumAmounts (monthExpenses reportStore 1 6 2025) ∧
    List.Sorted (fun g1 g2 : String × Int => g2.2 ≤ g1.2)
      (report_monthly reportStore 1 6 2025).expenseByCategory :=
  ⟨(c8_monthly_report_breakdown.1 reportStore 1 6 2025).2.1,
    (c8_monthly_report_breakdown.1 reportStore 1 6 2025).2.2.1⟩

/-- Zeta-reduced form of `list_transactions`. -/
lemma list_transactions_eq (s : Store) (uid limit : Nat) :
    list_transactions s uid limit =
      (((s.transactions.filter (fun t => t.userId == uid)).insertionSort occDesc).take
        limit).map (fun t =>
          ⟨t.id, t.type, t.amount, categoryNameOf s t.categoryId, t.note, t.occurredAt⟩) := rfl

/-- Successful insert: a valid kind and non-negative amount insert exactly one
new row, whose rowid is the transactions counter of the category-resolution
store (equal to the original counter). -/
lemma add_transaction_ok (s : Store) (uid : Nat) (ty : String) (amount : Int)
    (cat note occAt : Option String) (now : String)
    (hty : ty = "income" ∨ ty = "expense") (hamt : 0 ≤ amount) :
    ∃ (s1 : Store) (cid? : Option Nat),
      s1.transactions = s.transactions ∧ s1.nextTxId = s.nextTxId ∧
      (add_transaction s uid ty amount cat note occAt now).2 =
        { s1 with
          transactions := s1.transactions ++
            [⟨s1.nextTxId, uid, ty, amount, cid?, note, occAt.getD now, now⟩]
          nextTxId := s1.nextTxId + 1 } ∧
      ∃ alert, (add_transaction s uid ty amount cat note occAt now).1 =
        .ok s1.nextTxId alert := by
  have hcond : ¬(ty ≠ "income" ∧ ty ≠ "expense") := by
    rcases hty with rfl | rfl <;> simp
  rcases cat with _ | name
  · refine ⟨s, none, rfl, rfl, ?_, ?_⟩
    · unfold add_transaction
      rw [if_neg hcond, if_neg (Int.not_lt.2 hamt)]
    · unfold add_transaction
      rw [if_neg hcond, if_neg (Int.not_lt.2 hamt)]
      exact ⟨_, rfl⟩
  · by_cases hname : name = ""
    · refine ⟨s, none, rfl, rfl, ?_, ?_⟩
      · unfold add_transaction
        rw [if_neg hcond]
        simp only [if_pos hname]
        rw [if_neg (Int.not_lt.2 hamt)]
      · unfold add_transaction
        rw [if_neg hcond]
        simp only [if_pos hname]
        rw [if_neg (Int.not_lt.2 hamt)]
        exact ⟨_, rfl⟩
    · refine ⟨(add_category s uid name).2, some (add_category s uid name).1,
        add_category_transactions s uid name, add_category_nextTxId s uid name, ?_, ?_⟩
      · unfold add_transaction
        rw [if_neg hcond]
        simp only [if_neg hname]
        rw [if_neg (Int.not_lt.2 hamt)]
      · unfold add_transaction
        rw [if_neg hcond]
        simp only [if_neg hname]
        rw [if_neg (Int.not_lt.2 hamt)]
        exact ⟨_, rfl⟩

/-- C9: `list_transactions` always returns a newest-`occurred_at`-first
sequence of at most `limit` rows (ties broken arbitrarily), and — amended
with the bound the `LIMIT` clause forces — after a valid insert a listing
whose `limit` accommodates all of the user's rows surfaces the new
transaction exactly once, its `occurred_at` being the supplied date or,
when omitted, the insertion time. -/
theorem c9_list_transactions_surfaces_insert :
    (∀ (s : Store) (uid limit : Nat),
      List.Sorted (fun v1 v2 : TxView => strLeB v2.occurredAt v1.occurredAt = true)
        (list_transactions s uid limit) ∧
      (list_transactions s uid limit).length ≤ limit) ∧
    (∀ (s : Store) (uid : Nat) (ty : String) (amount : Int)
        (cat note occAt : Option String) (now : String) (limit : Nat),
      (ty = "income" ∨ ty = "expense") → 0 ≤ amount →
      (∀ t ∈ s.transactions, t.id < s.nextTxId) →
      (s.transactions.filter (fun t => t.userId == uid)).length + 1 ≤ limit →
      ∃ txId alert,
        (add_transaction s uid ty amount cat note occAt now).1 = .ok txId alert ∧
        ((list_transactions (add_transaction s uid ty amount cat note occAt now).2 uid
            limit).filter (fun v => v.id == txId)).length = 1 ∧
        (∀ v ∈ list_transactions (add_transaction s uid ty amount cat note occAt now).2 uid
            limit, v.id = txId → v.occurredAt = occAt.getD now)) := by
  constructor
  · intro s uid limit
    constructor
    · exact List.Pairwise.map _ (fun a b h => h)
        (List.Pairwise.sublist (List.take_sublist limit _)
          (List.sorted_insertionSort occDesc
            (s.transactions.filter (fun t => t.userId == uid))))
    · rw [list_transactions_eq, List.length_map]
      exact List.length_take_le limit _
  · intro s uid ty amount cat note occAt now limit hty hamt hfresh hlim
    obtain ⟨s1, cid?, ht1, hn1, hs2, alert, ho⟩ :=
      add_transaction_ok s uid ty amount cat note occAt now hty hamt
    have htrans : (add_transaction s uid ty amount cat note occAt now).2.transactions =
        s.transactions ++ [⟨s1.nextTxId, uid, ty, amount, cid?, note, occAt.getD now, now⟩] := by
      rw [hs2, ht1]
    have hnewfil : List.filter (fun t => t.userId == uid)
        [(⟨s1.nextTxId, uid, ty, amount, cid?, note, occAt.getD now, now⟩ : TxRow)] =
        [⟨s1.nextTxId, uid, ty, amount, cid?, note, occAt.getD now, now⟩] := by
      simp
    have hlen : (((s.transactions.filter (fun t => t.userId == uid)) ++
        [(⟨s1.nextTxId, uid, ty, amount, cid?, note, occAt.getD now, now⟩ :
          TxRow)]).insertionSort occDesc).length ≤ limit := by
      rw [(List.perm_insertionSort occDesc _).length_eq, List.length_append]
      simpa using hlim
    refine ⟨s1.nextTxId, alert, ho, ?_, ?_⟩
    · rw [list_transactions_eq, htrans, List.filter_append, hnewfil,
        List.take_of_length_le hlen, List.filter_map, List.length_map]
      rw [((List.perm_insertionSort occDesc _).filter _).length_eq, List.filter_append]
      have hz : List.filter ((fun v : TxView => v.id == s1.nextTxId) ∘ (fun t : TxRow =>
          ⟨t.id, t.type, t.amount,
            categoryNameOf (add_transaction s uid ty amount cat note occAt now).2 t.categoryId,
            t.note, t.occurredAt⟩))
          (s.transactions.filter (fun t => t.userId == uid)) = [] := by
        rw [List.filter_eq_nil_iff]
        intro t htf hc
        simp only [Function.comp_apply, beq_iff_eq] at hc
        have := hfresh t (List.mem_filter.1 htf).1
        rw [hn1] at hc
        omega
      rw [hz]
      simp
    · intro v hv hvid
      rw [list_transactions_eq, htrans, List.filter_append, hnewfil,
        List.take_of_length_le hlen, List.mem_map] at hv
      obtain ⟨t, htk, rfl⟩ := hv
      rw [List.mem_insertionSort, List.mem_append] at htk
      rcases htk with htf | htnew
      · have hid := hfresh t (List.mem_filter.1 htf).1
        simp only at hvid
        rw [hn1] at hvid
        omega
      · rw [List.mem_singleton] at htnew
        rw [htnew]

/-- C9 as universally stated is false: with `limit` 0 (or any limit smaller
than the user's row count) the `LIMIT` clause cuts the new transaction out of
the listing, so an insert is not always surfaced. -/
theorem c9_counterexample :
    (add_transaction aliceStore 1 "income" 10 none none (some "2025-06-05") "t").1 =
      .ok 1 none ∧
    (add_transaction aliceStore 1 "income" 10 none none
      (some "2025-06-05") "t").2.transactions.length = 1 ∧
    list_transactions (add_transaction aliceStore 1 "income" 10 none none
      (some "2025-06-05") "t").2 1 0 = [] := by
  exact ⟨by decide, by decide, by decide⟩

/-- Closed instance of `c9_list_transactions_surfaces_insert`: after the add
of the counterexample, a listing with limit 50 surfaces the row exactly
once. -/
theorem c9_list_transactions_surfaces_insert_witness :
    (aliceStore.transactions.filter (fun t => t.userId == 1)).length + 1 ≤ 50 ∧
    ∃ txId alert,
      (add_transaction aliceStore 1 "income" 10 none none (some "2025-06-05") "t").1 =
        .ok txId alert ∧
      ((list_transactions (add_transaction aliceStore 1 "income" 10 none none
          (some "2025-06-05") "t").2 1 50).filter (fun v => v.id == txId)).length = 1 ∧
      (∀ v ∈ list_transactions (add_transaction aliceStore 1 "income" 10 none none
          (some "2025-06-05") "t").2 1 50, v.id = txId →
        v.occurredAt = (some "2025-06-05").getD "t") := by
  refine ⟨by decide, ?_⟩
  exact c9_list_transactions_surfaces_insert.2 aliceStore 1 "income" 10 none none
    (some "2025-06-05") "t" 50 (Or.inl rfl) (by decide)
    (fun t ht => absurd ht (List.not_mem_nil t)) (by decide)

end PFM
